import Mathlib

/-!
Verification of the chunked raster-threshold pipeline
(`raster_threshold_chunked.py`).

The program reads a single-band raster in block windows, infers a native
threshold from one sampled block (99.9th percentile of the valid pixels,
classified into a 0–1 / 0–100 / 0–10000 scale bucket), thresholds each
block into a uint8 mask in {0, 1}, optionally downsampling block-wise by
an integer factor, and writes each mask block at its destination window.

Pixel values and thresholds (floats in the program) are modelled as
rationals.  Because the library's rational arithmetic operations are
`irreducible`, the embedding computes with `mkRat`-based equivalents
(`rmul`, `radd`, `rsub`) that evaluate inside the kernel; each is proved
equal to the corresponding arithmetic operation, so theorems can reason
with ordinary algebra while witnesses evaluate concrete runs.
-/

/-- Executable rational multiplication; equals `a * b`. -/
def rmul (a b : ℚ) : ℚ := mkRat (a.num * b.num) (a.den * b.den)

/-- Executable rational addition; equals `a + b`. -/
def radd (a b : ℚ) : ℚ := mkRat (a.num * b.den + b.num * a.den) (a.den * b.den)

/-- Executable rational subtraction; equals `a - b`. -/
def rsub (a b : ℚ) : ℚ := mkRat (a.num * b.den - b.num * a.den) (a.den * b.den)

/-- Decidable equality for `Except`, used to evaluate whole pipeline runs
on concrete inputs. -/
instance {ε α : Type} [DecidableEq ε] [DecidableEq α] : DecidableEq (Except ε α) := fun a b =>
  match a, b with
  | .ok x, .ok y => if h : x = y then .isTrue (by rw [h]) else .isFalse (by simp [h])
  | .error e, .error f => if h : e = f then .isTrue (by rw [h]) else .isFalse (by simp [h])
  | .ok _, .error _ => .isFalse (by simp)
  | .error _, .ok _ => .isFalse (by simp)

/-- A block window of a raster grid: `rasterio.windows.Window` restricted
to the non-negative integer geometry the program uses. -/
structure Window where
  row_off : Nat
  col_off : Nat
  height : Nat
  width : Nat
deriving DecidableEq, Repr

/-- The source raster as seen by the program: dimensions, the block
windows enumerated by `src.block_windows(1)`, the stored band-1 pixel
values, and the per-pixel validity mask attached by the raster library
(`False` marks a no-data pixel). -/
structure SourceGrid where
  height : Nat
  width : Nat
  blocks : List Window
  value : Nat → Nat → ℚ
  validAt : Nat → Nat → Bool

/-- Model of `src.read(1, window=w, masked=True)` followed by
`.compressed()`: the stored values of the valid pixels of window `w`, in
row-major order. -/
def readMaskedValid (src : SourceGrid) (w : Window) : List ℚ :=
  (List.range w.height).flatMap (fun i =>
    (List.range w.width).filterMap (fun j =>
      if src.validAt (w.row_off + i) (w.col_off + j) then
        some (src.value (w.row_off + i) (w.col_off + j))
      else none))

/-- Ascending insertion of one element into a sorted list. -/
def insertAsc (x : ℚ) : List ℚ → List ℚ
  | [] => [x]
  | y :: ys => if x ≤ y then x :: y :: ys else y :: insertAsc x ys

/-- Ascending sort (model of the sort inside `np.nanpercentile`). -/
def sortAsc (xs : List ℚ) : List ℚ := xs.foldr insertAsc []

/-- Model of `np.nanpercentile(xs, q)` with the default linear
interpolation: sort ascending, take the fractional index
`h = (n-1) * q/100` and interpolate between the two neighbouring order
statistics. -/
def nanpercentile (xs : List ℚ) (q : ℚ) : ℚ :=
  let sorted := sortAsc xs
  let n := sorted.length
  if n = 0 then 0
  else
    let h : ℚ := rmul (rsub (mkRat (n : Int) 1) 1) (rmul q (mkRat 1 100))
    let i : Nat := h.floor.toNat
    let frac : ℚ := rsub h (mkRat h.floor 1)
    let vlo := sorted.getD i 0
    let vhi := sorted.getD (min (i + 1) (n - 1)) 0
    radd vlo (rmul frac (rsub vhi vlo))

/-- The ordered scale buckets of `infer_threshold_value`, first match
wins: `data_max ≤ 1 → 1`, `≤ 110 → 100`, `≤ 11000 → 10000`, otherwise the
fallback `1`. -/
def classify_scale (data_max : ℚ) : ℚ :=
  if data_max ≤ 1 then 1
  else if data_max ≤ 110 then 100
  else if data_max ≤ 11000 then 10000
  else 1

/-- Model of `infer_threshold_value(src, threshold)`: sample the first
block window, compute the 99.9th percentile of its valid pixels (falling back
to `1.0` when no valid pixel remains), classify the scale and return
`(threshold * scale, scale, data_max)`.  With no block windows it raises
`RuntimeError("No windows found in the raster.")`. -/
def infer_threshold_value (src : SourceGrid) (threshold : ℚ) :
    Except String (ℚ × ℚ × ℚ) :=
  match src.blocks.head? with
  | none => .error "No windows found in the raster."
  | some first_window =>
    let valid := readMaskedValid src first_window
    let data_max : ℚ := if valid.length = 0 then 1 else nanpercentile valid (mkRat 999 10)
    let scale := classify_scale data_max
    .ok (rmul threshold scale, scale, data_max)

/-- The estimator's sampled data max over first window `w`: the 99.9th
percentile of the valid sample, or the fallback 1.0 when the sample is
empty. -/
def sampleMax (src : SourceGrid) (w : Window) : ℚ :=
  let valid := readMaskedValid src w
  if valid.length = 0 then 1 else nanpercentile valid (mkRat 999 10)

/-- Model of the plain windowed read `src.read(1, window=w)`: the stored
values of window `w`, row-major, ignoring the validity mask. -/
def readBlock (src : SourceGrid) (w : Window) : List (List ℚ) :=
  (List.range w.height).map (fun i =>
    (List.range w.width).map (fun j => src.value (w.row_off + i) (w.col_off + j)))

/-- Model of `src.read(1, window=w, out_shape=(outH, outW),
resampling=nearest)`: one representative stored pixel per output cell. -/
def readBlockResampled (src : SourceGrid) (w : Window) (outH outW : Nat) :
    List (List ℚ) :=
  (List.range outH).map (fun i =>
    (List.range outW).map (fun j =>
      src.value (w.row_off + i * w.height / outH) (w.col_off + j * w.width / outW)))

/-- Elementwise threshold `mask = (data >= thr_native).astype(np.uint8)`
into `{0, 1}`. -/
def mkMask (thr_native : ℚ) (data : List (List ℚ)) : List (List Nat) :=
  data.map (fun row => row.map (fun v => if v ≥ thr_native then 1 else 0))

/-- The Python guard `if overview and overview > 1` (0 is falsy), deciding
whether downsampling is active. -/
def useOverview (overview : Int) : Bool :=
  decide (overview ≠ 0) && decide (1 < overview)

/-- One windowed write to the destination raster: the window passed to
`dst.write` and the mask block written there. -/
structure WriteOp where
  window : Window
  block : List (List Nat)
deriving DecidableEq, Repr

/-- The destination profile the program configures before writing:
output dimensions and the factor by which the geotransform is scaled
(`1` when not downsampling). -/
structure OutProfile where
  height : Nat
  width : Nat
  transform_scale : Int
deriving DecidableEq, Repr

/-- The data read for one source block: `none` when the decimated shape
`(w.height // overview, w.width // overview)` has a zero dimension and the
block is skipped (`continue`), otherwise the (possibly resampled) pixel
block. -/
def blockData (src : SourceGrid) (overview : Int) (w : Window) :
    Option (List (List ℚ)) :=
  if useOverview overview then
    let height := w.height / overview.toNat
    let width := w.width / overview.toNat
    if height ≤ 0 ∨ width ≤ 0 then none
    else some (readBlockResampled src w height width)
  else some (readBlock src w)

/-- The window handed to `dst.write` for source window `w`: the
`//overview` offsets with the mask's own shape when downsampling,
otherwise `w` itself. -/
def destWindow (overview : Int) (w : Window) (mask : List (List Nat)) : Window :=
  if useOverview overview then
    { row_off := w.row_off / overview.toNat
      col_off := w.col_off / overview.toNat
      height := mask.length
      width := (mask.getD 0 []).length }
  else w

/-- One iteration of the block loop in `main`: read (or skip) the block,
threshold it, and pair the mask with its destination window. -/
def processBlock (src : SourceGrid) (thr_native : ℚ) (overview : Int) (w : Window) :
    Option WriteOp :=
  (blockData src overview w).map (fun data =>
    let mask := mkMask thr_native data
    { window := destWindow overview w mask, block := mask })

/-- Model of `main` after argument parsing: infer the native
threshold, configure the destination profile, and process every source
block in order.  The `.ok` payload is the configured profile together
with the sequence of windowed writes; `.error` is a run aborted by
`infer_threshold_value` before the destination is opened, so no output
is created. -/
def mainRun (src : SourceGrid) (thr : ℚ) (overview : Int) :
    Except String (OutProfile × List WriteOp) :=
  match infer_threshold_value src thr with
  | .error e => .error e
  | .ok (thr_native, _scale, _data_max) =>
    let profile : OutProfile :=
      if useOverview overview then
        { height := max 1 (src.height / overview.toNat)
          width := max 1 (src.width / overview.toNat)
          transform_scale := overview }
      else
        { height := src.height, width := src.width, transform_scale := 1 }
    .ok (profile, src.blocks.filterMap (processBlock src thr_native overview))

/-- The cell of a mask block at row `i`, column `j` (0 outside). -/
def cellAt (m : List (List Nat)) (i j : Nat) : Nat := (m.getD i []).getD j 0

/-- The number of 1-valued cells in one write's mask block. -/
def blockOnes (wr : WriteOp) : Nat := (wr.block.map (fun row => row.count 1)).sum

/-- The total number of 1-valued cells over a run's writes. -/
def countOnes (ws : List WriteOp) : Nat := (ws.map blockOnes).sum

/-- Does window `w` contain grid cell `(r, c)`? -/
def Window.containsB (w : Window) (r c : Nat) : Bool :=
  decide (w.row_off ≤ r) && decide (r < w.row_off + w.height) &&
  decide (w.col_off ≤ c) && decide (c < w.col_off + w.width)

/-- The padding value used when indexing past the end of a write list. -/
def emptyWrite : WriteOp := { window := ⟨0, 0, 0, 0⟩, block := [] }

/-- The pixel values of the spec's end-to-end example. -/
def exampleVals : List (List ℚ) :=
  [[0, 20, 40, 60], [80, 100, 0, 20], [40, 60, 80, 100], [0, 0, 0, 0]]

/-- The spec's synthetic 4×4 single-band source with one 4×4 block and no
no-data pixels. -/
def exampleSrc : SourceGrid :=
  { height := 4
    width := 4
    blocks := [⟨0, 0, 4, 4⟩]
    value := fun i j => (exampleVals.getD i []).getD j 0
    validAt := fun _ _ => true }

/-- The mask the spec's end-to-end example expects. -/
def exampleMask : List (List Nat) :=
  [[0, 0, 1, 1], [1, 1, 0, 0], [1, 1, 1, 1], [0, 0, 0, 0]]

/-- The mask the example source produces with requested fraction 0.6. -/
def exampleMask60 : List (List Nat) :=
  [[0, 0, 0, 1], [1, 1, 0, 0], [0, 1, 1, 1], [0, 0, 0, 0]]

/-- A source whose block enumeration is empty. -/
def emptySrc : SourceGrid :=
  { height := 3
    width := 3
    blocks := []
    value := fun _ _ => 0
    validAt := fun _ _ => true }

/-- A 2×2 single-block source whose pixels are all flagged no-data. -/
def allInvalidSrc : SourceGrid :=
  { height := 2
    width := 2
    blocks := [⟨0, 0, 2, 2⟩]
    value := fun _ _ => 9999
    validAt := fun _ _ => false }

/-- A 1×1 single-block source whose only pixel is flagged no-data but
stores the sentinel value 50. -/
def nodataSrc : SourceGrid :=
  { height := 1
    width := 1
    blocks := [⟨0, 0, 1, 1⟩]
    value := fun _ _ => 50
    validAt := fun _ _ => false }

/-! ## Theorems -/

theorem rmul_eq (a b : ℚ) : rmul a b = a * b := by
  rw [rmul, Rat.mul_def, Rat.normalize_eq_mkRat]

theorem radd_eq (a b : ℚ) : radd a b = a + b := (Rat.add_def' a b).symm

theorem rsub_eq (a b : ℚ) : rsub a b = a - b := (Rat.sub_def' a b).symm

theorem classify_scale_pos (m : ℚ) : 0 < classify_scale m := by
  unfold classify_scale
  split
  · norm_num
  · split
    · norm_num
    · split <;> norm_num

/-- Inversion of a successful run: the native threshold comes from the
estimator, the profile from the overview guard, and the writes from the
block loop. -/
theorem mainRun_ok_writes (src : SourceGrid) (thr : ℚ) (overview : Int)
    (p : OutProfile) (ws : List WriteOp)
    (h : mainRun src thr overview = .ok (p, ws)) :
    ∃ tn s m, infer_threshold_value src thr = .ok (tn, s, m) ∧
      ws = src.blocks.filterMap (processBlock src tn overview) ∧
      p = (if useOverview overview then
            { height := max 1 (src.height / overview.toNat)
              width := max 1 (src.width / overview.toNat)
              transform_scale := overview }
          else { height := src.height, width := src.width, transform_scale := 1 }) := by
  unfold mainRun at h
  cases hinf : infer_threshold_value src thr with
  | error e => rw [hinf] at h; exact absurd h (by simp)
  | ok t =>
    obtain ⟨tn, s, m⟩ := t
    rw [hinf] at h
    simp only [Except.ok.injEq, Prod.mk.injEq] at h
    exact ⟨tn, s, m, rfl, h.2.symm, h.1.symm⟩

/-- C2: on the synthetic 4×4 single-block source with requested fraction
0.4 and no downsampling, the estimator computes sampled_max = 100 (the
99.9th percentile of the valid sample), hence scale_factor = 100 and
native_threshold = 40, and the run writes exactly the expected mask over
the full 4×4 grid. -/
theorem end_to_end_example :
    infer_threshold_value exampleSrc (mkRat 2 5) = .ok (40, 100, 100) ∧
    mainRun exampleSrc (mkRat 2 5) 0 =
      .ok (⟨4, 4, 1⟩, [⟨⟨0, 0, 4, 4⟩, exampleMask⟩]) := by
  exact ⟨by decide, by decide⟩

/-- C3: the scale classification is first-match-wins over the ordered
buckets (≤ 1 → 1, ≤ 110 → 100, ≤ 11000 → 10000, otherwise 1), and the
sampled-max values 1, 1.000001, 110, 110.000001, 11000, 11000.000001 and
50000 map to the scale factors 1, 100, 100, 10000, 10000, 1, 1. -/
theorem scale_bucket_boundaries :
    (∀ m : ℚ, m ≤ 1 → classify_scale m = 1) ∧
    (∀ m : ℚ, ¬ m ≤ 1 → m ≤ 110 → classify_scale m = 100) ∧
    (∀ m : ℚ, ¬ m ≤ 1 → ¬ m ≤ 110 → m ≤ 11000 → classify_scale m = 10000) ∧
    (∀ m : ℚ, ¬ m ≤ 1 → ¬ m ≤ 110 → ¬ m ≤ 11000 → classify_scale m = 1) ∧
    classify_scale 1 = 1 ∧
    classify_scale (mkRat 1000001 1000000) = 100 ∧
    classify_scale 110 = 100 ∧
    classify_scale (mkRat 110000001 1000000) = 10000 ∧
    classify_scale 11000 = 10000 ∧
    classify_scale (mkRat 11000000001 1000000) = 1 ∧
    classify_scale 50000 = 1 := by
  refine ⟨fun m h1 => by simp [classify_scale, h1],
    fun m h1 h2 => by simp [classify_scale, h1, h2],
    fun m h1 h2 h3 => by simp [classify_scale, h1, h2, h3],
    fun m h1 h2 h3 => by simp [classify_scale, h1, h2, h3],
    by decide, by decide, by decide, by decide, by decide, by decide, by decide⟩

theorem scale_bucket_boundaries_witness :
    classify_scale (mkRat 1 2) = 1 ∧ classify_scale 50 = 100 ∧
    classify_scale 5000 = 10000 ∧ classify_scale 20000 = 1 :=
  ⟨scale_bucket_boundaries.1 (mkRat 1 2) (by decide),
   scale_bucket_boundaries.2.1 50 (by decide) (by decide),
   scale_bucket_boundaries.2.2.1 5000 (by decide) (by decide) (by decide),
   scale_bucket_boundaries.2.2.2.1 20000 (by decide) (by decide) (by decide)⟩

/-- C5: with zero block windows the run fails inside the scale-estimation
step with the RuntimeError message; the `.error` result carries no
destination profile and no writes, so no output raster is created or
partially written — the failure happens before the destination is ever
opened or configured. -/
theorem empty_source_failure (src : SourceGrid) (thr : ℚ) (overview : Int)
    (h : src.blocks = []) :
    infer_threshold_value src thr = .error "No windows found in the raster." ∧
    mainRun src thr overview = .error "No windows found in the raster." := by
  have hinf : infer_threshold_value src thr = .error "No windows found in the raster." := by
    unfold infer_threshold_value
    rw [h]
    rfl
  exact ⟨hinf, by unfold mainRun; rw [hinf]⟩

theorem empty_source_failure_witness :
    infer_threshold_value emptySrc (mkRat 2 5) = .error "No windows found in the raster." ∧
    mainRun emptySrc (mkRat 2 5) 0 = .error "No windows found in the raster." :=
  empty_source_failure emptySrc (mkRat 2 5) 0 rfl

/-- C9: when the sampled block retains no valid pixel the estimator falls
back to sampled_max = 1, which lands in the first scale bucket, so the
scale factor is 1 and the native threshold is the requested fraction
unchanged. -/
theorem empty_sample_fallback (src : SourceGrid) (w : Window) (f : ℚ)
    (hw : src.blocks.head? = some w) (hvalid : readMaskedValid src w = []) :
    infer_threshold_value src f = .ok (f, 1, 1) := by
  unfold infer_threshold_value
  rw [hw]
  simp [hvalid, classify_scale, rmul_eq]

theorem empty_sample_fallback_witness :
    infer_threshold_value allInvalidSrc (mkRat 2 5) = .ok (mkRat 2 5, 1, 1) :=
  empty_sample_fallback allInvalidSrc ⟨0, 0, 2, 2⟩ (mkRat 2 5) (by decide) (by decide)

/-- C8: every cell of every mask block the pipeline writes is 0 or 1. -/
theorem mask_value_domain (src : SourceGrid) (thr : ℚ) (overview : Int)
    (p : OutProfile) (ws : List WriteOp)
    (h : mainRun src thr overview = .ok (p, ws)) :
    ∀ wr ∈ ws, ∀ row ∈ wr.block, ∀ v ∈ row, v = 0 ∨ v = 1 := by
  obtain ⟨tn, s, m, hinf, hws, hp⟩ := mainRun_ok_writes src thr overview p ws h
  subst hws
  intro wr hwr row hrow v hv
  rw [List.mem_filterMap] at hwr
  obtain ⟨w, hw, hpb⟩ := hwr
  unfold processBlock at hpb
  rw [Option.map_eq_some'] at hpb
  obtain ⟨data, hdata, hwr'⟩ := hpb
  subst hwr'
  simp only [mkMask, List.mem_map] at hrow
  obtain ⟨r, hr, hrow'⟩ := hrow
  subst hrow'
  rw [List.mem_map] at hv
  obtain ⟨u, hu, hv'⟩ := hv
  subst hv'
  split <;> simp

theorem mask_value_domain_witness :
    cellAt exampleMask 0 2 = 0 ∨ cellAt exampleMask 0 2 = 1 :=
  mask_value_domain exampleSrc (mkRat 2 5) 0 ⟨4, 4, 1⟩
    [⟨⟨0, 0, 4, 4⟩, exampleMask⟩] (by decide)
    ⟨⟨0, 0, 4, 4⟩, exampleMask⟩ (by decide)
    [0, 0, 1, 1] (by decide)
    (cellAt exampleMask 0 2) (by decide)

/-- C1 counterexample: in the run over `nodataSrc` the only pixel is
flagged no-data, yet the pipeline writes a 1 for it — the block loop
reads raw stored values, so the sentinel 50 compares ≥ the native
threshold 0.4 and produces a 1.  This refutes the claim that a no-data
pixel never contributes a 1 to the output mask. -/
theorem nodata_pixel_contributes_one :
    nodataSrc.validAt 0 0 = false ∧
    mainRun nodataSrc (mkRat 2 5) 0 =
      .ok (⟨1, 1, 1⟩, [⟨⟨0, 0, 1, 1⟩, [[1]]⟩]) := by
  exact ⟨rfl, by decide⟩

/-- C1 amended: validity masking applies only in scale estimation — the
estimator's sample contains only values of pixels whose validity flag is
set — while per-block thresholding uses the raw stored value of every
pixel, regardless of its validity flag. -/
theorem mask_honored_only_in_estimation (src : SourceGrid) (w : Window) :
    (∀ x ∈ readMaskedValid src w, ∃ i j, i < w.height ∧ j < w.width ∧
        src.validAt (w.row_off + i) (w.col_off + j) = true ∧
        x = src.value (w.row_off + i) (w.col_off + j)) ∧
    (∀ t : ℚ, ∀ i j, i < w.height → j < w.width →
        cellAt (mkMask t (readBlock src w)) i j =
          if src.value (w.row_off + i) (w.col_off + j) ≥ t then 1 else 0) := by
  constructor
  · intro x hx
    rw [readMaskedValid, List.mem_flatMap] at hx
    obtain ⟨i, hi, hx⟩ := hx
    rw [List.mem_filterMap] at hx
    obtain ⟨j, hj, hx⟩ := hx
    refine ⟨i, j, List.mem_range.mp hi, List.mem_range.mp hj, ?_⟩
    split at hx
    case isTrue hb => exact ⟨hb, (Option.some.inj hx).symm⟩
    case isFalse hb => exact absurd hx (by simp)
  · intro t i j hi hj
    simp [cellAt, mkMask, readBlock, List.map_map, List.getD_eq_getElem?_getD,
      List.getElem?_map, List.getElem?_range hi, List.getElem?_range hj]

theorem mask_honored_only_in_estimation_witness :
    cellAt (mkMask 40 (readBlock exampleSrc ⟨0, 0, 4, 4⟩)) 0 2 =
      if exampleSrc.value (0 + 0) (0 + 2) ≥ 40 then 1 else 0 :=
  (mask_honored_only_in_estimation exampleSrc ⟨0, 0, 4, 4⟩).2 40 0 2 (by decide) (by decide)

/-- Overview values that fail the Python guard `overview and overview > 1`
are exactly those ≤ 1 (0 is falsy; negative values fail `> 1`). -/
theorem useOverview_eq_false (overview : Int) (h : overview ≤ 1) :
    useOverview overview = false := by
  have h1 : ¬ (1 < overview) := by omega
  simp [useOverview, h1]

/-- Without downsampling the block loop reads every block at full
resolution, thresholds it, and writes it at its own window. -/
theorem filterMap_processBlock_id (src : SourceGrid) (t : ℚ) (overview : Int)
    (hov : useOverview overview = false) (bs : List Window) :
    bs.filterMap (processBlock src t overview) =
      bs.map (fun w => { window := w, block := mkMask t (readBlock src w) }) := by
  induction bs with
  | nil => rfl
  | cons w bs ih =>
    simp [List.filterMap_cons, processBlock, blockData, destWindow, hov, ih]

/-- C10: every downsample-factor value ≤ 1 — including the default 0 and
negative integers, which the interface accepts — behaves exactly like no
downsampling: the run equals the overview-0 run, the output profile keeps
the source dimensions with unscaled transform, and every block is read at
full resolution and written at the source block's own window. -/
theorem overview_le_one_no_downsampling (src : SourceGrid) (thr : ℚ)
    (overview : Int) (hov : overview ≤ 1) :
    mainRun src thr overview = mainRun src thr 0 ∧
    ∀ p ws, mainRun src thr overview = .ok (p, ws) →
      p = { height := src.height, width := src.width, transform_scale := 1 } ∧
      ∃ tn s m, infer_threshold_value src thr = .ok (tn, s, m) ∧
        ws = src.blocks.map (fun w => { window := w, block := mkMask tn (readBlock src w) }) := by
  have hovf := useOverview_eq_false overview hov
  have h0 : useOverview 0 = false := rfl
  constructor
  · unfold mainRun
    cases hinf : infer_threshold_value src thr with
    | error e => rfl
    | ok t =>
      obtain ⟨tn, s, m⟩ := t
      simp only [hovf, h0, Bool.false_eq_true, if_false,
        filterMap_processBlock_id src tn overview hovf,
        filterMap_processBlock_id src tn 0 h0]
  · intro p ws h
    obtain ⟨tn, s, m, hinf, hws, hp⟩ := mainRun_ok_writes src thr overview p ws h
    rw [hovf] at hp
    refine ⟨by simpa using hp, tn, s, m, hinf, ?_⟩
    rw [hws, filterMap_processBlock_id src tn overview hovf]

theorem overview_le_one_no_downsampling_witness :
    mainRun exampleSrc (mkRat 2 5) (-3) = mainRun exampleSrc (mkRat 2 5) 0 :=
  (overview_le_one_no_downsampling exampleSrc (mkRat 2 5) (-3) (by decide)).1

/-- C4: without downsampling the destination windows written are exactly
the source block windows, in order; hence when the source blocks tile the
grid exactly and without overlap, the writes cover the full output grid
(whose profile keeps the source dimensions) with no overlaps — every
output cell is covered by exactly one written destination window. -/
theorem coverage_without_downsampling (src : SourceGrid) (thr : ℚ)
    (overview : Int) (hov : overview ≤ 1) (p : OutProfile) (ws : List WriteOp)
    (hrun : mainRun src thr overview = .ok (p, ws))
    (htile : ∀ r, r < src.height → ∀ c, c < src.width →
      src.blocks.countP (fun w => w.containsB r c) = 1) :
    ws.map WriteOp.window = src.blocks ∧
    p.height = src.height ∧ p.width = src.width ∧
    ∀ r, r < p.height → ∀ c, c < p.width →
      (ws.map WriteOp.window).countP (fun w => w.containsB r c) = 1 := by
  obtain ⟨tn, s, m, hinf, hws, hp⟩ := mainRun_ok_writes src thr overview p ws hrun
  have hovf := useOverview_eq_false overview hov
  rw [hovf] at hp
  simp only [Bool.false_eq_true, if_false] at hp
  have hmap : ws.map WriteOp.window = src.blocks := by
    have hcomp : (WriteOp.window ∘ fun w =>
        ({ window := w, block := mkMask tn (readBlock src w) } : WriteOp)) = id := rfl
    rw [hws, filterMap_processBlock_id src tn overview hovf, List.map_map, hcomp, List.map_id]
  refine ⟨hmap, by rw [hp], by rw [hp], ?_⟩
  intro r hr c hc
  rw [hmap]
  rw [hp] at hr hc
  exact htile r hr c hc

theorem coverage_without_downsampling_witness :
    ([⟨⟨0, 0, 4, 4⟩, exampleMask⟩] : List WriteOp).map WriteOp.window = exampleSrc.blocks :=
  (coverage_without_downsampling exampleSrc (mkRat 2 5) 0 (by decide) ⟨4, 4, 1⟩
    [⟨⟨0, 0, 4, 4⟩, exampleMask⟩] (by decide) (by decide)).1

theorem mkMask_length (t : ℚ) (d : List (List ℚ)) : (mkMask t d).length = d.length := by
  simp [mkMask]

theorem readBlockResampled_length (src : SourceGrid) (w : Window) (outH outW : Nat) :
    (readBlockResampled src w outH outW).length = outH := by
  simp [readBlockResampled]

/-- Every row of a mask over a resampled block has the requested output
width. -/
theorem mask_row_length (t : ℚ) (src : SourceGrid) (w : Window) (outH outW : Nat)
    (row : List Nat) (h : row ∈ mkMask t (readBlockResampled src w outH outW)) :
    row.length = outW := by
  simp only [mkMask, readBlockResampled, List.map_map, List.mem_map] at h
  obtain ⟨i, hi, hrow⟩ := h
  rw [← hrow]
  simp

/-- The first row of a mask over a resampled block with a nonzero output
height has the requested output width. -/
theorem mask_getD_zero_length (t : ℚ) (src : SourceGrid) (w : Window) (outH outW : Nat)
    (h : outH ≠ 0) :
    ((mkMask t (readBlockResampled src w outH outW)).getD 0 []).length = outW := by
  cases houtH : outH with
  | zero => exact absurd houtH h
  | succ n =>
    simp [mkMask, readBlockResampled, List.range_succ_eq_map]

/-- C7: with a downsample factor greater than 1, each source block's
planned target shape is (height//factor, width//factor); a block whose
target shape has a zero dimension is skipped and contributes no write,
and otherwise the write's destination window has offsets
(row_off//factor, col_off//factor) and exactly the target shape. -/
theorem downsample_block_plan (src : SourceGrid) (t : ℚ) (overview : Int)
    (hov : 1 < overview) (w : Window) :
    (w.height / overview.toNat = 0 ∨ w.width / overview.toNat = 0 →
      processBlock src t overview w = none) ∧
    (w.height / overview.toNat ≠ 0 → w.width / overview.toNat ≠ 0 →
      ∃ mask, processBlock src t overview w = some
          { window := { row_off := w.row_off / overview.toNat
                        col_off := w.col_off / overview.toNat
                        height := w.height / overview.toNat
                        width := w.width / overview.toNat }
            block := mask } ∧
        mask.length = w.height / overview.toNat ∧
        ∀ row ∈ mask, row.length = w.width / overview.toNat) := by
  have h0 : overview ≠ 0 := by omega
  have hovt : useOverview overview = true := by simp [useOverview, h0, hov]
  constructor
  · rintro (h | h) <;> simp [processBlock, blockData, hovt, h]
  · intro h1 h2
    refine ⟨mkMask t (readBlockResampled src w (w.height / overview.toNat)
      (w.width / overview.toNat)), ?_, ?_, ?_⟩
    · simp only [processBlock, blockData, destWindow, hovt, if_true]
      rw [if_neg (by push_neg; exact ⟨Nat.pos_of_ne_zero h1, Nat.pos_of_ne_zero h2⟩)]
      simp only [Option.map_some', Option.some.injEq]
      congr 1
      simp only [mkMask_length, readBlockResampled_length,
        mask_getD_zero_length t src w _ _ h1]
    · rw [mkMask_length, readBlockResampled_length]
    · exact fun row hrow => mask_row_length t src w _ _ row hrow

theorem downsample_block_plan_witness :
    processBlock exampleSrc (mkRat 2 5) 2 ⟨3, 5, 1, 1⟩ = none :=
  (downsample_block_plan exampleSrc (mkRat 2 5) 2 (by decide) ⟨3, 5, 1, 1⟩).1 (by decide)

/-- Raising the threshold can only turn mask cells from 1 to 0. -/
theorem indicator_mono (t1 t2 : ℚ) (h : t1 ≤ t2) (v : ℚ) :
    (if v ≥ t2 then (1 : Nat) else 0) ≤ (if v ≥ t1 then (1 : Nat) else 0) := by
  by_cases h2 : v ≥ t2
  · have h1 : v ≥ t1 := le_trans h h2
    simp [h1, h2]
  · simp [h2]

theorem cellAt_mkMask_mono (t1 t2 : ℚ) (h : t1 ≤ t2) (d : List (List ℚ)) (i j : Nat) :
    cellAt (mkMask t2 d) i j ≤ cellAt (mkMask t1 d) i j := by
  simp only [cellAt, mkMask, List.getD_eq_getElem?_getD, List.getElem?_map]
  cases hrow : d[i]? with
  | none => simp
  | some row =>
    simp only [Option.map_some', Option.getD_some, List.getElem?_map]
    cases hv : row[j]? with
    | none => simp
    | some v =>
      simp only [Option.map_some', Option.getD_some]
      exact indicator_mono t1 t2 h v

theorem mkMask_getD_zero_len_eq (t1 t2 : ℚ) (d : List (List ℚ)) :
    ((mkMask t1 d).getD 0 []).length = ((mkMask t2 d).getD 0 []).length := by
  cases d <;> simp [mkMask]

/-- The destination window of a block does not depend on the threshold
used for its mask, only on the mask's shape. -/
theorem destWindow_mkMask_eq (overview : Int) (w : Window) (t1 t2 : ℚ)
    (d : List (List ℚ)) :
    destWindow overview w (mkMask t1 d) = destWindow overview w (mkMask t2 d) := by
  unfold destWindow
  split
  · rw [Window.mk.injEq]
    exact ⟨rfl, rfl, by rw [mkMask_length, mkMask_length],
      mkMask_getD_zero_len_eq t1 t2 d⟩
  · rfl

/-- Two runs over the same blocks with different thresholds write the
same destination windows. -/
theorem filterMap_window_congr (src : SourceGrid) (overview : Int) (t1 t2 : ℚ)
    (bs : List Window) :
    (bs.filterMap (processBlock src t2 overview)).map WriteOp.window =
    (bs.filterMap (processBlock src t1 overview)).map WriteOp.window := by
  induction bs with
  | nil => rfl
  | cons w bs ih =>
    rw [List.filterMap_cons, List.filterMap_cons]
    cases hd : blockData src overview w with
    | none => simp only [processBlock, hd, Option.map_none']; exact ih
    | some d =>
      simp only [processBlock, hd, Option.map_some', List.map_cons]
      rw [ih, destWindow_mkMask_eq overview w t2 t1 d]

/-- Cell-wise monotonicity across the whole written sequence. -/
theorem filterMap_cell_mono (src : SourceGrid) (overview : Int) (t1 t2 : ℚ)
    (h : t1 ≤ t2) (bs : List Window) (k i j : Nat) :
    cellAt ((bs.filterMap (processBlock src t2 overview)).getD k emptyWrite).block i j ≤
    cellAt ((bs.filterMap (processBlock src t1 overview)).getD k emptyWrite).block i j := by
  induction bs generalizing k with
  | nil => simp [cellAt, emptyWrite]
  | cons w bs ih =>
    rw [List.filterMap_cons, List.filterMap_cons]
    cases hd : blockData src overview w with
    | none => simp only [processBlock, hd, Option.map_none']; exact ih k
    | some d =>
      simp only [processBlock, hd, Option.map_some']
      cases k with
      | zero =>
        simp only [List.getD_cons_zero]
        exact cellAt_mkMask_mono t1 t2 h d i j
      | succ k =>
        simp only [List.getD_cons_succ]
        exact ih k

/-- Raising the threshold cannot increase the number of 1-cells in one
mask row. -/
theorem rowOnes_mono (t1 t2 : ℚ) (h : t1 ≤ t2) (r : List ℚ) :
    (r.map (fun v => if v ≥ t2 then 1 else 0)).count 1 ≤
    (r.map (fun v => if v ≥ t1 then (1 : Nat) else 0)).count 1 := by
  induction r with
  | nil => simp
  | cons v r ih =>
    have e1 : (if (((1 : Nat) == 1) = true) then (1 : Nat) else 0) = 1 := rfl
    have e0 : (if (((0 : Nat) == 1) = true) then (1 : Nat) else 0) = 0 := rfl
    simp only [List.map_cons, List.count_cons]
    by_cases h2 : v ≥ t2
    · have h1 : v ≥ t1 := le_trans h h2
      rw [if_pos h1, if_pos h2, e1]
      omega
    · rw [if_neg h2, e0]
      by_cases h1 : v ≥ t1
      · rw [if_pos h1, e1]
        omega
      · rw [if_neg h1, e0]
        omega

theorem blockOnes_mkMask_mono (t1 t2 : ℚ) (h : t1 ≤ t2) (d : List (List ℚ)) :
    ((mkMask t2 d).map (fun row => row.count 1)).sum ≤
    ((mkMask t1 d).map (fun row => row.count 1)).sum := by
  unfold mkMask
  rw [List.map_map, List.map_map]
  exact List.sum_le_sum (fun r _ => rowOnes_mono t1 t2 h r)

theorem countOnes_filterMap_mono (src : SourceGrid) (overview : Int) (t1 t2 : ℚ)
    (h : t1 ≤ t2) (bs : List Window) :
    countOnes (bs.filterMap (processBlock src t2 overview)) ≤
    countOnes (bs.filterMap (processBlock src t1 overview)) := by
  induction bs with
  | nil => simp [countOnes]
  | cons w bs ih =>
    rw [List.filterMap_cons, List.filterMap_cons]
    cases hd : blockData src overview w with
    | none => simp only [processBlock, hd, Option.map_none']; exact ih
    | some d =>
      simp only [processBlock, hd, Option.map_some']
      have hb := blockOnes_mkMask_mono t1 t2 h d
      simp only [countOnes, List.map_cons, List.sum_cons, blockOnes] at ih ⊢
      omega

/-- The estimator's successful result is `(rmul f scale, scale, max)`
with scale and max independent of the requested fraction. -/
theorem infer_ok_shape (src : SourceGrid) (f : ℚ) (w : Window)
    (hw : src.blocks.head? = some w) :
    infer_threshold_value src f =
      .ok (rmul f (classify_scale (sampleMax src w)),
        classify_scale (sampleMax src w), sampleMax src w) := by
  unfold infer_threshold_value sampleMax
  rw [hw]

/-- C6: for the same source data (hence the same inferred scale) and two
requested fractions f1 ≤ f2, the run with f2 writes the same destination
windows as the run with f1 and at every cell a value ≤ the f1 run's; in
particular it never has more 1-valued cells in total. -/
theorem threshold_monotonicity (src : SourceGrid) (overview : Int) (f1 f2 : ℚ)
    (hf : f1 ≤ f2) (p1 p2 : OutProfile) (ws1 ws2 : List WriteOp)
    (h1 : mainRun src f1 overview = .ok (p1, ws1))
    (h2 : mainRun src f2 overview = .ok (p2, ws2)) :
    ws2.map WriteOp.window = ws1.map WriteOp.window ∧
    (∀ k i j, cellAt ((ws2.getD k emptyWrite)).block i j ≤
              cellAt ((ws1.getD k emptyWrite)).block i j) ∧
    countOnes ws2 ≤ countOnes ws1 := by
  obtain ⟨tn1, s1, m1, hinf1, hws1, -⟩ := mainRun_ok_writes src f1 overview p1 ws1 h1
  obtain ⟨tn2, s2, m2, hinf2, hws2, -⟩ := mainRun_ok_writes src f2 overview p2 ws2 h2
  cases hw : src.blocks.head? with
  | none =>
    rw [infer_threshold_value, hw] at hinf1
    exact absurd hinf1 (by simp)
  | some w =>
    rw [infer_ok_shape src f1 w hw] at hinf1
    rw [infer_ok_shape src f2 w hw] at hinf2
    simp only [Except.ok.injEq, Prod.mk.injEq] at hinf1 hinf2
    have htn1 : tn1 = rmul f1 (classify_scale (sampleMax src w)) := hinf1.1.symm
    have htn2 : tn2 = rmul f2 (classify_scale (sampleMax src w)) := hinf2.1.symm
    have htn : tn1 ≤ tn2 := by
      rw [htn1, htn2, rmul_eq, rmul_eq]
      exact mul_le_mul_of_nonneg_right hf (le_of_lt (classify_scale_pos _))
    subst hws1 hws2
    exact ⟨filterMap_window_congr src overview tn1 tn2 src.blocks,
      fun k i j => filterMap_cell_mono src overview tn1 tn2 htn src.blocks k i j,
      countOnes_filterMap_mono src overview tn1 tn2 htn src.blocks⟩

theorem threshold_monotonicity_witness :
    countOnes [⟨⟨0, 0, 4, 4⟩, exampleMask60⟩] ≤ countOnes [⟨⟨0, 0, 4, 4⟩, exampleMask⟩] :=
  (threshold_monotonicity exampleSrc 0 (mkRat 2 5) (mkRat 3 5) (by decide) ⟨4, 4, 1⟩ ⟨4, 4, 1⟩
    [⟨⟨0, 0, 4, 4⟩, exampleMask⟩] [⟨⟨0, 0, 4, 4⟩, exampleMask60⟩]
    (by decide) (by decide)).2.2
